import Mathlib

/-!
Verification of the multi-agent debate coordination core
(`src/multi_agent_debate/core.py` plus the mock aggregation in
`demo_mock.py`), shallowly embedded in Lean 4.

Pure data and the message-handler bodies are translated directly from the
Python source: dataclasses become structures, handler methods become
functions from the agent's state (and the oracle's text output, which is an
external input) to the new state plus the list of published messages.
-/

/-! ## Message dataclasses (core.py lines 29-79) -/

structure Question where
  content : String
deriving DecidableEq, Repr

structure Answer where
  content : String
deriving DecidableEq, Repr

/-- Message from the Orchestrator assigning the problem to specific experts. -/
structure ExpertAssignment where
  question : String
  assigned_experts : List String
  reasoning : String
deriving DecidableEq, Repr

/-- Solution from an assigned expert. -/
structure ExpertSolution where
  expert_name : String
  question : String
  solution : String
  answer : String
deriving DecidableEq, Repr

instance : Inhabited ExpertSolution := ⟨⟨"", "", "", ""⟩⟩

/-! ## Python string primitives

The Python string methods the source uses (`startswith`, `strip`,
`replace`, `lower`, `split('\n')`, slicing, substring `in`) are modeled by
structural recursion over the character list so that every definition
evaluates inside the kernel.  `strip` and `lower` are modeled on ASCII;
every text the code matches against is ASCII. -/

/-- Boolean test that the character list `p` is an initial segment of `s`
(Python `s.startswith(p)` on character lists). -/
def leadsList : List Char → List Char → Bool
  | [], _ => true
  | _ :: _, [] => false
  | a :: p, b :: s => a == b && leadsList p s

/-- Python's substring containment `p in s` on character lists. -/
def occursIn : List Char → List Char → Bool
  | p, [] => decide (p = [])
  | p, c :: s => leadsList p (c :: s) || occursIn p s

/-- Python's `p in s` on strings. -/
def strContains (p s : String) : Bool :=
  occursIn p.data s.data

/-- Python's `s.startswith(pre)`. -/
def pyStartsWith (s pre : String) : Bool :=
  leadsList pre.data s.data

/-- Python's `s.strip()`: remove whitespace from both ends. -/
def pyStrip (s : String) : String :=
  String.mk (((s.data.dropWhile Char.isWhitespace).reverse.dropWhile
    Char.isWhitespace).reverse)

/-- Python's `s.replace(old, new)` on character lists: replace every
non-overlapping occurrence of `old`, scanning left to right.  The fuel
argument (instantiated with the list length, which bounds the number of
steps because `old` is never empty at any call site) makes the recursion
structural. -/
def pyReplaceAux (old new : List Char) : Nat → List Char → List Char
  | _, [] => []
  | 0, l => l
  | fuel + 1, c :: cs =>
    if !old.isEmpty && leadsList old (c :: cs) then
      new ++ pyReplaceAux old new fuel (List.drop old.length (c :: cs))
    else c :: pyReplaceAux old new fuel cs

/-- Python's `s.replace(old, new)`. -/
def pyReplace (s old new : String) : String :=
  String.mk (pyReplaceAux old.data new.data s.data.length s.data)

/-- Python's `s.lower()` (ASCII). -/
def pyLower (s : String) : String :=
  String.mk (s.data.map Char.toLower)

/-- Python's `s.split('\n')` on character lists: the segments between
newline characters, keeping empty segments. -/
def splitNl : List Char → List (List Char)
  | [] => [[]]
  | c :: cs =>
    if c = '\n' then [] :: splitNl cs
    else
      match splitNl cs with
      | [] => [[c]]
      | p :: ps => (c :: p) :: ps

/-- Python's `s.split('\n')`. -/
def pySplitLines (s : String) : List String :=
  (splitNl s.data).map String.mk

/-- Python's slice `s[n:]`. -/
def pyDrop (s : String) (n : Nat) : String :=
  String.mk (s.data.drop n)

/-- Python's `", ".join(l)`. -/
def commaJoin : List String → String
  | [] => ""
  | [x] => x
  | x :: xs => x ++ ", " ++ commaJoin xs

/-! ## ProgressLedger (core.py lines 139-169) -/

structure ProgressLedger where
  task_complete : Bool
  unproductive_loops : Nat
  progress_being_made : Bool
  next_speaker : Option String
  next_speaker_instruction : String
  stall_count : Nat
  completed_steps : List String
deriving DecidableEq, Repr

/-- The dataclass field defaults of `ProgressLedger`. -/
def ProgressLedger.init : ProgressLedger :=
  { task_complete := false
    unproductive_loops := 0
    progress_being_made := true
    next_speaker := none
    next_speaker_instruction := ""
    stall_count := 0
    completed_steps := [] }

/-- `ProgressLedger.update_progress` (core.py lines 150-160). -/
def ProgressLedger.update_progress (pl : ProgressLedger)
    (step_completed : Option String) (progress_made : Bool) : ProgressLedger :=
  let pl1 :=
    match step_completed with
    | some s => { pl with completed_steps := pl.completed_steps ++ [s] }
    | none => pl
  let pl2 := { pl1 with progress_being_made := progress_made }
  if progress_made then { pl2 with stall_count := 0 }
  else { pl2 with stall_count := pl2.stall_count + 1 }

/-- `ProgressLedger.check_stall` (core.py lines 162-164). -/
def ProgressLedger.check_stall (pl : ProgressLedger) : Bool :=
  decide (pl.stall_count > 2) || !pl.progress_being_made

/-- `ProgressLedger.set_next_action` (core.py lines 166-169). -/
def ProgressLedger.set_next_action (pl : ProgressLedger)
    (speaker : String) (instruction : String) : ProgressLedger :=
  { pl with next_speaker := some speaker, next_speaker_instruction := instruction }

/-! ## TaskLedger (core.py lines 82-136) -/

structure TaskLedger where
  question : String
  given_facts : List String
  facts_to_lookup : List String
  facts_to_derive : List String
  educated_guesses : List String
  task_plan : List String
deriving DecidableEq, Repr

/-- A fresh `TaskLedger` for a question (dataclass defaults). -/
def TaskLedger.init (q : String) : TaskLedger :=
  { question := q
    given_facts := []
    facts_to_lookup := []
    facts_to_derive := []
    educated_guesses := []
    task_plan := [] }

/-- The dispatch on `current_section` of `TaskLedger.update_from_analysis`
(core.py lines 125-136): append `item` to the list selected by the section
key `s`; an unrecognized key appends nowhere. -/
def TaskLedger.appendItem (tl : TaskLedger) (s : String) (item : String) : TaskLedger :=
  if s = "given_facts" then { tl with given_facts := tl.given_facts ++ [item] }
  else if s = "facts_to_lookup" then
    { tl with facts_to_lookup := tl.facts_to_lookup ++ [item] }
  else if s = "facts_to_derive" then
    { tl with facts_to_derive := tl.facts_to_derive ++ [item] }
  else if s = "educated_guesses" then
    { tl with educated_guesses := tl.educated_guesses ++ [item] }
  else if s = "task_plan" then { tl with task_plan := tl.task_plan ++ [item] }
  else tl

/-- A section-header branch of the line loop (e.g. core.py lines 100-104):
enter the section `key` and append the header's remainder when non-empty. -/
def TaskLedger.headerLine (tl : TaskLedger) (key : String) (content : String) :
    TaskLedger × Option String :=
  (if content = "" then tl else tl.appendItem key content, some key)

/-- One iteration of the line loop of `TaskLedger.update_from_analysis`
(core.py lines 98-136): the state is the ledger together with
`current_section` (a Python string or `None`). -/
def TaskLedger.updateLine (tl : TaskLedger) (sec : Option String)
    (rawLine : String) : TaskLedger × Option String :=
  let line := pyStrip rawLine
  if pyStartsWith line "GIVEN_FACTS:" then
    tl.headerLine "given_facts" (pyStrip (pyReplace line "GIVEN_FACTS:" ""))
  else if pyStartsWith line "FACTS_TO_LOOKUP:" then
    tl.headerLine "facts_to_lookup" (pyStrip (pyReplace line "FACTS_TO_LOOKUP:" ""))
  else if pyStartsWith line "FACTS_TO_DERIVE:" then
    tl.headerLine "facts_to_derive" (pyStrip (pyReplace line "FACTS_TO_DERIVE:" ""))
  else if pyStartsWith line "EDUCATED_GUESSES:" then
    tl.headerLine "educated_guesses" (pyStrip (pyReplace line "EDUCATED_GUESSES:" ""))
  else if pyStartsWith line "TASK_PLAN:" then
    tl.headerLine "task_plan" (pyStrip (pyReplace line "TASK_PLAN:" ""))
  else if pyStartsWith line "- " && sec.isSome then
    match sec with
    | some s => (tl.appendItem s (pyStrip (pyDrop line 2)), sec)
    | none => (tl, sec)
  else (tl, sec)

/-- `TaskLedger.update_from_analysis` (core.py lines 92-136): split the
analysis text into lines and run the line loop with `current_section`
starting as `None`. -/
def TaskLedger.update_from_analysis (tl : TaskLedger) (analysis_content : String) :
    TaskLedger :=
  ((pySplitLines analysis_content).foldl
    (fun p line => TaskLedger.updateLine p.1 p.2 line) (tl, none)).1

/-! ## Answer-marker extraction

The experts and the Evaluator extract an answer with
`re.search(r"\{\{(\-?\d+(\.\d+)?)\}\}", text)` (core.py lines 463, 527, 643):
the leftmost occurrence of a double-curly-brace marker enclosing a signed
integer or decimal; the captured group is the number without the braces. -/

/-- Greedily take the leading run of decimal digits (the regex piece `\d+`,
greedy; backtracking it can never help here because both possible
continuations, a dot and a closing brace, fail on a digit). -/
def takeDigits : List Char → List Char × List Char
  | [] => ([], [])
  | c :: cs =>
    if c.isDigit then
      let p := takeDigits cs
      (c :: p.1, p.2)
    else ([], c :: cs)

/-- Match `\d+(\.\d+)?\}\}` at the start of `cs` and return
`sign ++ captured-group` on success. -/
def parseNumBody (sign : List Char) (cs : List Char) : Option (List Char) :=
  let p := takeDigits cs
  if p.1 = [] then none
  else
    match p.2 with
    | '}' :: '}' :: _ => some (sign ++ p.1)
    | '.' :: cs3 =>
      let q := takeDigits cs3
      if q.1 = [] then none
      else
        match q.2 with
        | '}' :: '}' :: _ => some (sign ++ p.1 ++ '.' :: q.1)
        | _ => none
    | _ => none

/-- Match `(\-?\d+(\.\d+)?)\}\}` at the start of `cs` (the part of the
pattern after the opening braces), returning the captured group. -/
def parseMarkerAt : List Char → Option (List Char)
  | '-' :: cs => parseNumBody ['-'] cs
  | cs => parseNumBody [] cs

/-- `re.search` for the marker pattern: try every start position left to
right; at a position starting with two opening braces, try the number/closing
part and on failure resume the scan one character further. -/
def findMarker : List Char → Option String
  | [] => none
  | c :: cs =>
    if c = '\x7b' then
      match cs with
      | [] => none
      | c2 :: cs2 =>
        if c2 = '\x7b' then
          match parseMarkerAt cs2 with
          | some g => some (String.mk g)
          | none => findMarker cs
        else findMarker cs
    else findMarker cs

/-- The captured group of the leftmost marker match in `s`, if any. -/
def extractAnswer (s : String) : Option String :=
  findMarker s.data

/-! ## Expert agents (core.py lines 417-542)

`GeometryExpert.handle_assignment` and `AlgebraExpert.handle_assignment`
have identical logic up to the expert's name: return early when not named
in the assignment, otherwise call the oracle, extract the answer (falling
back to the sentinel `"No answer found"`), and publish one
`ExpertSolution`.  The oracle's text output is an input of the embedding. -/

def expertHandleAssignment (name : String) (msg : ExpertAssignment)
    (modelOutput : String) : Option ExpertSolution :=
  if name ∈ msg.assigned_experts then
    some { expert_name := name
           question := msg.question
           solution := modelOutput
           answer := (extractAnswer modelOutput).getD "No answer found" }
  else none

/-- `GeometryExpert.handle_assignment` (core.py lines 438-478). -/
def GeometryExpert.handle_assignment (msg : ExpertAssignment)
    (modelOutput : String) : Option ExpertSolution :=
  expertHandleAssignment "GeometryExpert" msg modelOutput

/-- `AlgebraExpert.handle_assignment` (core.py lines 502-542). -/
def AlgebraExpert.handle_assignment (msg : ExpertAssignment)
    (modelOutput : String) : Option ExpertSolution :=
  expertHandleAssignment "AlgebraExpert" msg modelOutput

/-! ## Evaluator (core.py lines 545-660) -/

structure EvaluatorState where
  solutions_buffer : List ExpertSolution
  expected_experts : List String
  current_question : String
  progress_ledger : Option ProgressLedger
deriving DecidableEq, Repr

/-- The `Evaluator.__init__` state (core.py lines 549-556). -/
def EvaluatorState.init : EvaluatorState :=
  { solutions_buffer := []
    expected_experts := []
    current_question := ""
    progress_ledger := none }

/-- `Evaluator.handle_assignment` (core.py lines 578-589). -/
def Evaluator.handle_assignment (st : EvaluatorState) (msg : ExpertAssignment) :
    EvaluatorState :=
  { st with
    expected_experts := msg.assigned_experts
    current_question := msg.question
    solutions_buffer := []
    progress_ledger := some (ProgressLedger.init.set_next_action "Experts"
      ("Waiting for solutions from: " ++ commaJoin msg.assigned_experts)) }

/-- `Evaluator.handle_solution` (core.py lines 591-605).  The returned `Bool`
records whether `_evaluate_solutions` was invoked on this message (the
barrier release).  `_evaluate_solutions` itself mutates only the progress
ledger and publishes the `Answer`; it never touches `solutions_buffer` or
`expected_experts` (see `Evaluator.evaluate_solutions` below), so the
release condition of later messages is fully determined here. -/
def Evaluator.handle_solution (st : EvaluatorState) (msg : ExpertSolution) :
    EvaluatorState × Bool :=
  if msg.expert_name ∈ st.expected_experts then
    let buf := st.solutions_buffer ++ [msg]
    let pl := st.progress_ledger.map
      (fun p => p.update_progress (some ("Received solution from " ++ msg.expert_name)) true)
    let st1 : EvaluatorState := { st with solutions_buffer := buf, progress_ledger := pl }
    if (buf.map (fun m => m.expert_name)).toFinset = st.expected_experts.toFinset then
      (st1, true)
    else (st1, false)
  else (st, false)

/-- `Evaluator._evaluate_solutions` (core.py lines 607-660): the oracle text
is an input; returns the new state and the list of published messages. -/
def Evaluator.evaluate_solutions (st : EvaluatorState) (modelOutput : String) :
    EvaluatorState × List Answer :=
  let pl1 := st.progress_ledger.map (fun p =>
    (p.update_progress (some "Starting solution evaluation") true).set_next_action
      "Evaluator" "Validating expert solutions")
  let final_answer := (extractAnswer modelOutput).getD "Evaluation incomplete"
  let pl2 := pl1.map (fun p =>
    (({ p with task_complete := true }).update_progress
        (some "Task completed with validated answer") true).set_next_action
      "Complete" "Final answer provided")
  ({ st with progress_ledger := pl2 }, [{ content := final_answer }])

/-- Feed a sequence of `ExpertSolution` messages to the Evaluator, recording
for each one whether it released the barrier (invoked
`_evaluate_solutions`). -/
def Evaluator.run : EvaluatorState → List ExpertSolution → EvaluatorState × List Bool
  | st, [] => (st, [])
  | st, m :: rest =>
    let r1 := Evaluator.handle_solution st m
    let r2 := Evaluator.run r1.1 rest
    (r2.1, r1.2 :: r2.2)

/-- The set of expert names the Evaluator has buffered after the given
messages (starting from an empty buffer): exactly the names of the messages
from expected experts. -/
def receivedSet (expected : List String) (msgs : List ExpertSolution) : Finset String :=
  ((msgs.filter (fun m => decide (m.expert_name ∈ expected))).map
    (fun m => m.expert_name)).toFinset

/-! ## Orchestrator (core.py lines 255-414) -/

/-- One iteration of the `ASSIGNED_EXPERTS:` parsing loop of
`Orchestrator.handle_question` (core.py lines 363-375); `acc` is the
`assigned_experts` list so far (each header line overwrites it). -/
def assignFromLine (acc : List String) (line : String) : List String :=
  if pyStartsWith line "ASSIGNED_EXPERTS:" then
    let expert_text := pyStrip (pyReplace line "ASSIGNED_EXPERTS:" "")
    if strContains "both" (pyLower expert_text) then ["GeometryExpert", "AlgebraExpert"]
    else if strContains "GeometryExpert" expert_text then ["GeometryExpert"]
    else if strContains "AlgebraExpert" expert_text then ["AlgebraExpert"]
    else ["AlgebraExpert"]
  else acc

/-- The expert-assignment resolution of `Orchestrator.handle_question`
(core.py lines 359-378): scan the analysis lines, then fall back to the
safe default when no line assigned anything. -/
def parseAssignedExperts (analysis_content : String) : List String :=
  let assigned := (pySplitLines analysis_content).foldl assignFromLine []
  if assigned = [] then ["AlgebraExpert"] else assigned

structure OrchestratorState where
  task_ledger : Option TaskLedger
  progress_ledger : Option ProgressLedger
deriving DecidableEq, Repr

/-- `Orchestrator.handle_expert_solution` (core.py lines 399-414). -/
def Orchestrator.handle_expert_solution (st : OrchestratorState)
    (msg : ExpertSolution) : OrchestratorState :=
  match st.progress_ledger with
  | none => st
  | some pl =>
    let pl1 := pl.update_progress (some (msg.expert_name ++ " provided solution")) true
    let pl2 :=
      if pl1.check_stall then
        pl1.set_next_action "Evaluator" "Validate available solutions due to stall detection"
      else pl1.set_next_action "Evaluator" "Validate expert solutions"
    { st with progress_ledger := some pl2 }

/-! ## Majority vote (demo_mock.py lines 162-164)

`Counter(mock_answers).most_common(1)[0][0]`: a `Counter` iterates its keys
in first-encounter order, and `most_common` sorts them stably by decreasing
count, so the result is the first-encountered value of maximal count. -/

/-- The distinct values of a list in first-encounter order (`Counter` key
order); `seen` accumulates the values already emitted. -/
def firstKeys (seen : List String) : List String → List String
  | [] => []
  | a :: l =>
    if a ∈ seen then firstKeys seen l else a :: firstKeys (a :: seen) l

/-- `Counter(answers).most_common(1)[0][0]` (`none` on an empty list, where
the Python indexing would raise). -/
def mostCommon1 (answers : List String) : Option String :=
  match firstKeys [] answers with
  | [] => none
  | k :: ks =>
    some (ks.foldl (fun best x => if answers.count best < answers.count x then x else best) k)

/-! ## Helper lemmas -/

theorem assignFromLine_skip (acc : List String) (line : String)
    (h : pyStartsWith line "ASSIGNED_EXPERTS:" = false) :
    assignFromLine acc line = acc := by
  simp [assignFromLine, h]

theorem foldl_assignFromLine_skip : ∀ (lines : List String) (acc : List String),
    (∀ line ∈ lines, pyStartsWith line "ASSIGNED_EXPERTS:" = false) →
    lines.foldl assignFromLine acc = acc := by
  intro lines
  induction lines with
  | nil => intro acc _; rfl
  | cons line rest ih =>
    intro acc h
    rw [List.foldl_cons, assignFromLine_skip acc line (h line (List.mem_cons_self _ _))]
    exact ih acc (fun l hl => h l (List.mem_cons_of_mem _ hl))

theorem foldl_assignFromLine_unrecognized : ∀ (lines : List String) (acc : List String),
    (∀ line ∈ lines, pyStartsWith line "ASSIGNED_EXPERTS:" = true →
      strContains "both" (pyLower (pyStrip (pyReplace line "ASSIGNED_EXPERTS:" ""))) = false ∧
      strContains "GeometryExpert" (pyStrip (pyReplace line "ASSIGNED_EXPERTS:" "")) = false ∧
      strContains "AlgebraExpert" (pyStrip (pyReplace line "ASSIGNED_EXPERTS:" "")) = false) →
    (acc = [] ∨ acc = ["AlgebraExpert"]) →
    (lines.foldl assignFromLine acc = [] ∨ lines.foldl assignFromLine acc = ["AlgebraExpert"]) := by
  intro lines
  induction lines with
  | nil => intro acc _ hacc; exact hacc
  | cons line rest ih =>
    intro acc h hacc
    rw [List.foldl_cons]
    refine ih (assignFromLine acc line) (fun l hl => h l (List.mem_cons_of_mem _ hl)) ?_
    by_cases hs : pyStartsWith line "ASSIGNED_EXPERTS:" = true
    · obtain ⟨h1, h2, h3⟩ := h line (List.mem_cons_self _ _) hs
      right
      simp [assignFromLine, hs, h1, h2, h3]
    · rw [assignFromLine_skip acc line (by simpa using hs)]
      exact hacc

/-- C6: for every analysis text the parsed `assigned_experts` list is
non-empty; with no `ASSIGNED_EXPERTS:` line, or with only such lines that
name no recognized expert, the assignment resolves to exactly the single
default expert `AlgebraExpert` (core.py lines 359-378). -/
theorem orchestrator_assigned_experts_default (analysis_content : String) :
    parseAssignedExperts analysis_content ≠ [] ∧
    ((∀ line ∈ pySplitLines analysis_content,
        pyStartsWith line "ASSIGNED_EXPERTS:" = false) →
      parseAssignedExperts analysis_content = ["AlgebraExpert"]) ∧
    ((∀ line ∈ pySplitLines analysis_content,
        pyStartsWith line "ASSIGNED_EXPERTS:" = true →
          strContains "both" (pyLower (pyStrip (pyReplace line "ASSIGNED_EXPERTS:" ""))) = false ∧
          strContains "GeometryExpert" (pyStrip (pyReplace line "ASSIGNED_EXPERTS:" "")) = false ∧
          strContains "AlgebraExpert" (pyStrip (pyReplace line "ASSIGNED_EXPERTS:" "")) = false) →
      parseAssignedExperts analysis_content = ["AlgebraExpert"]) := by
  refine ⟨?_, ?_, ?_⟩
  · simp only [parseAssignedExperts]
    split
    · simp
    · assumption
  · intro h
    have h0 := foldl_assignFromLine_skip (pySplitLines analysis_content) [] h
    simp [parseAssignedExperts, h0]
  · intro h
    rcases foldl_assignFromLine_unrecognized (pySplitLines analysis_content) [] h
        (Or.inl rfl) with h0 | h0 <;> simp [parseAssignedExperts, h0]

/-- Witness for C6 at a text with no header line. -/
theorem orchestrator_assigned_experts_default_witness :
    parseAssignedExperts "hello" = ["AlgebraExpert"] :=
  (orchestrator_assigned_experts_default "hello").2.1 (by decide)

/-- C5: `stall_count` increases by exactly 1 on each `update_progress` call
with `progress_made = false` and resets to 0 on any call with
`progress_made = true`; three consecutive no-progress updates on a fresh
ledger give `stall_count = 3` and `check_stall = true`, and one subsequent
progress update resets `stall_count` to 0 (core.py lines 150-164). -/
theorem progress_ledger_stall_counting (pl : ProgressLedger) (s : Option String) :
    (pl.update_progress s false).stall_count = pl.stall_count + 1 ∧
    (pl.update_progress s true).stall_count = 0 ∧
    (((ProgressLedger.init.update_progress none false).update_progress none
        false).update_progress none false).stall_count = 3 ∧
    (((ProgressLedger.init.update_progress none false).update_progress none
        false).update_progress none false).check_stall = true ∧
    ((((ProgressLedger.init.update_progress none false).update_progress none
        false).update_progress none false).update_progress none true).stall_count = 0 := by
  refine ⟨?_, ?_, by decide, by decide, by decide⟩ <;>
    cases s <;> simp [ProgressLedger.update_progress]

/-- C10: whenever the Orchestrator handles an `ExpertSolution` with its
progress ledger initialized, the preceding `update_progress` call passes
`progress_made = true`, so `check_stall` is false at the check and the next
action is always `next_speaker = "Evaluator"` with instruction
"Validate expert solutions" (core.py lines 399-414). -/
theorem orchestrator_stall_branch_unreachable (st : OrchestratorState)
    (msg : ExpertSolution) (pl : ProgressLedger)
    (h : st.progress_ledger = some pl) :
    (pl.update_progress (some (msg.expert_name ++ " provided solution")) true).check_stall
        = false ∧
    ∃ pl2, (Orchestrator.handle_expert_solution st msg).progress_ledger = some pl2 ∧
      pl2.next_speaker = some "Evaluator" ∧
      pl2.next_speaker_instruction = "Validate expert solutions" ∧
      pl2.stall_count = 0 ∧ pl2.progress_being_made = true := by
  have hcs : (pl.update_progress (some (msg.expert_name ++ " provided solution"))
      true).check_stall = false := by
    simp [ProgressLedger.update_progress, ProgressLedger.check_stall]
  refine ⟨hcs, ?_⟩
  unfold Orchestrator.handle_expert_solution
  rw [h]
  simp only [hcs]
  refine ⟨_, rfl, rfl, rfl, ?_, ?_⟩ <;>
    simp [ProgressLedger.set_next_action, ProgressLedger.update_progress]

/-- Witness for C10 on a fresh progress ledger. -/
theorem orchestrator_stall_branch_unreachable_witness :
    ((ProgressLedger.init.update_progress
        (some ("GeometryExpert" ++ " provided solution")) true).check_stall = false) ∧
    ∃ pl2, (Orchestrator.handle_expert_solution
        { task_ledger := none, progress_ledger := some ProgressLedger.init }
        { expert_name := "GeometryExpert", question := "q", solution := "s",
          answer := "5" }).progress_ledger = some pl2 ∧
      pl2.next_speaker = some "Evaluator" ∧
      pl2.next_speaker_instruction = "Validate expert solutions" ∧
      pl2.stall_count = 0 ∧ pl2.progress_being_made = true :=
  orchestrator_stall_branch_unreachable
    { task_ledger := none, progress_ledger := some ProgressLedger.init }
    { expert_name := "GeometryExpert", question := "q", solution := "s", answer := "5" }
    ProgressLedger.init rfl


theorem listOfTake {α : Type} (l1 l2 : List α) (h : l2.take l1.length = l1) :
    ∃ t, l2 = l1 ++ t := by
  have h2 := List.take_append_drop l1.length l2
  rw [h] at h2
  exact ⟨l2.drop l1.length, h2.symm⟩

theorem appendItem_take (tl : TaskLedger) (s item : String) :
    ((tl.appendItem s item).given_facts.take tl.given_facts.length = tl.given_facts) ∧
    ((tl.appendItem s item).facts_to_lookup.take tl.facts_to_lookup.length
        = tl.facts_to_lookup) ∧
    ((tl.appendItem s item).facts_to_derive.take tl.facts_to_derive.length
        = tl.facts_to_derive) ∧
    ((tl.appendItem s item).educated_guesses.take tl.educated_guesses.length
        = tl.educated_guesses) ∧
    ((tl.appendItem s item).task_plan.take tl.task_plan.length = tl.task_plan) := by
  unfold TaskLedger.appendItem
  refine ⟨?_, ?_, ?_, ?_, ?_⟩ <;>
    (repeat' split) <;> simp [List.take_left, List.take_length]

theorem headerLine_take (tl : TaskLedger) (key content : String) :
    ((tl.headerLine key content).1.given_facts.take tl.given_facts.length
        = tl.given_facts) ∧
    ((tl.headerLine key content).1.facts_to_lookup.take tl.facts_to_lookup.length
        = tl.facts_to_lookup) ∧
    ((tl.headerLine key content).1.facts_to_derive.take tl.facts_to_derive.length
        = tl.facts_to_derive) ∧
    ((tl.headerLine key content).1.educated_guesses.take tl.educated_guesses.length
        = tl.educated_guesses) ∧
    ((tl.headerLine key content).1.task_plan.take tl.task_plan.length = tl.task_plan) := by
  unfold TaskLedger.headerLine
  split
  · exact ⟨List.take_length _, List.take_length _, List.take_length _,
      List.take_length _, List.take_length _⟩
  · exact appendItem_take tl key content

theorem updateLine_take (tl : TaskLedger) (sec : Option String) (line : String) :
    ((TaskLedger.updateLine tl sec line).1.given_facts.take tl.given_facts.length
        = tl.given_facts) ∧
    ((TaskLedger.updateLine tl sec line).1.facts_to_lookup.take tl.facts_to_lookup.length
        = tl.facts_to_lookup) ∧
    ((TaskLedger.updateLine tl sec line).1.facts_to_derive.take tl.facts_to_derive.length
        = tl.facts_to_derive) ∧
    ((TaskLedger.updateLine tl sec line).1.educated_guesses.take tl.educated_guesses.length
        = tl.educated_guesses) ∧
    ((TaskLedger.updateLine tl sec line).1.task_plan.take tl.task_plan.length
        = tl.task_plan) := by
  unfold TaskLedger.updateLine
  dsimp only
  repeat' split
  all_goals
    first
      | exact headerLine_take tl _ _
      | exact appendItem_take tl _ _
      | exact ⟨List.take_length _, List.take_length _, List.take_length _,
          List.take_length _, List.take_length _⟩

theorem updateLine_appends (tl : TaskLedger) (sec : Option String) (line : String) :
    (∃ t, (TaskLedger.updateLine tl sec line).1.given_facts = tl.given_facts ++ t) ∧
    (∃ t, (TaskLedger.updateLine tl sec line).1.facts_to_lookup = tl.facts_to_lookup ++ t) ∧
    (∃ t, (TaskLedger.updateLine tl sec line).1.facts_to_derive = tl.facts_to_derive ++ t) ∧
    (∃ t, (TaskLedger.updateLine tl sec line).1.educated_guesses
        = tl.educated_guesses ++ t) ∧
    (∃ t, (TaskLedger.updateLine tl sec line).1.task_plan = tl.task_plan ++ t) := by
  obtain ⟨h1, h2, h3, h4, h5⟩ := updateLine_take tl sec line
  exact ⟨listOfTake _ _ h1, listOfTake _ _ h2, listOfTake _ _ h3,
    listOfTake _ _ h4, listOfTake _ _ h5⟩

theorem foldl_updateLine_appends : ∀ (lines : List String) (p : TaskLedger × Option String),
    (∃ t, ((lines.foldl (fun q line => TaskLedger.updateLine q.1 q.2 line) p).1.given_facts
        = p.1.given_facts ++ t)) ∧
    (∃ t, ((lines.foldl (fun q line => TaskLedger.updateLine q.1 q.2 line) p).1.facts_to_lookup
        = p.1.facts_to_lookup ++ t)) ∧
    (∃ t, ((lines.foldl (fun q line => TaskLedger.updateLine q.1 q.2 line) p).1.facts_to_derive
        = p.1.facts_to_derive ++ t)) ∧
    (∃ t, ((lines.foldl (fun q line => TaskLedger.updateLine q.1 q.2 line) p).1.educated_guesses
        = p.1.educated_guesses ++ t)) ∧
    (∃ t, ((lines.foldl (fun q line => TaskLedger.updateLine q.1 q.2 line) p).1.task_plan
        = p.1.task_plan ++ t)) := by
  intro lines
  induction lines with
  | nil => intro p; refine ⟨⟨[], ?_⟩, ⟨[], ?_⟩, ⟨[], ?_⟩, ⟨[], ?_⟩, ⟨[], ?_⟩⟩ <;> simp
  | cons line rest ih =>
    intro p
    obtain ⟨⟨a1, ha1⟩, ⟨b1, hb1⟩, ⟨c1, hc1⟩, ⟨d1, hd1⟩, ⟨e1, he1⟩⟩ :=
      updateLine_appends p.1 p.2 line
    obtain ⟨⟨a2, ha2⟩, ⟨b2, hb2⟩, ⟨c2, hc2⟩, ⟨d2, hd2⟩, ⟨e2, he2⟩⟩ :=
      ih (TaskLedger.updateLine p.1 p.2 line)
    rw [List.foldl_cons]
    exact ⟨⟨a1 ++ a2, by rw [ha2, ha1, List.append_assoc]⟩,
      ⟨b1 ++ b2, by rw [hb2, hb1, List.append_assoc]⟩,
      ⟨c1 ++ c2, by rw [hc2, hc1, List.append_assoc]⟩,
      ⟨d1 ++ d2, by rw [hd2, hd1, List.append_assoc]⟩,
      ⟨e1 ++ e2, by rw [he2, he1, List.append_assoc]⟩⟩

/-- C9: `TaskLedger.update_from_analysis` is append-only and total: for
every input text each of the five lists keeps its previous contents as a
prefix of the new value, and any line that (after stripping) neither starts
with one of the five section headers nor is a `"- "` item line under a
current section leaves the ledger and the section state unchanged
(core.py lines 92-136). -/
theorem task_ledger_append_only (tl : TaskLedger) (analysis_content : String) :
    (∃ t, (tl.update_from_analysis analysis_content).given_facts = tl.given_facts ++ t) ∧
    (∃ t, (tl.update_from_analysis analysis_content).facts_to_lookup
        = tl.facts_to_lookup ++ t) ∧
    (∃ t, (tl.update_from_analysis analysis_content).facts_to_derive
        = tl.facts_to_derive ++ t) ∧
    (∃ t, (tl.update_from_analysis analysis_content).educated_guesses
        = tl.educated_guesses ++ t) ∧
    (∃ t, (tl.update_from_analysis analysis_content).task_plan = tl.task_plan ++ t) ∧
    (∀ (t : TaskLedger) (sec : Option String) (line : String),
      pyStartsWith (pyStrip line) "GIVEN_FACTS:" = false →
      pyStartsWith (pyStrip line) "FACTS_TO_LOOKUP:" = false →
      pyStartsWith (pyStrip line) "FACTS_TO_DERIVE:" = false →
      pyStartsWith (pyStrip line) "EDUCATED_GUESSES:" = false →
      pyStartsWith (pyStrip line) "TASK_PLAN:" = false →
      (pyStartsWith (pyStrip line) "- " = false ∨ sec = none) →
      TaskLedger.updateLine t sec line = (t, sec)) := by
  obtain ⟨h1, h2, h3, h4, h5⟩ :=
    foldl_updateLine_appends (pySplitLines analysis_content) (tl, none)
  refine ⟨h1, h2, h3, h4, h5, ?_⟩
  intro t sec line g1 g2 g3 g4 g5 g6
  unfold TaskLedger.updateLine
  rcases g6 with g6 | g6
  · simp [g1, g2, g3, g4, g5, g6]
  · subst g6
    simp [g1, g2, g3, g4, g5]

/-- Witness for C9: a non-header line is ignored with the section state
preserved. -/
theorem task_ledger_append_only_witness :
    TaskLedger.updateLine (TaskLedger.init "q") none "hello there" =
      (TaskLedger.init "q", none) :=
  (task_ledger_append_only (TaskLedger.init "q") "x").2.2.2.2.2
    (TaskLedger.init "q") none "hello there"
    (by decide) (by decide) (by decide) (by decide) (by decide) (Or.inr rfl)

theorem mem_firstKeys : ∀ (l seen : List String) (a : String),
    a ∈ l → a ∉ seen → a ∈ firstKeys seen l := by
  intro l
  induction l with
  | nil => intro seen a ha _; exact absurd ha (List.not_mem_nil a)
  | cons b l ih =>
    intro seen a ha hns
    unfold firstKeys
    split_ifs with hb
    · rcases List.mem_cons.mp ha with rfl | h
      · exact absurd hb hns
      · exact ih seen a h hns
    · rcases List.mem_cons.mp ha with rfl | h
      · exact List.mem_cons_self _ _
      · by_cases hab : a = b
        · subst hab; exact List.mem_cons_self _ _
        · exact List.mem_cons_of_mem _ (ih (b :: seen) a h (by simp [hab, hns]))

theorem count_le_foldl_best (answers : List String) : ∀ (ks : List String) (k : String),
    answers.count k ≤ answers.count (ks.foldl
      (fun best x => if answers.count best < answers.count x then x else best) k) ∧
    ∀ x ∈ ks, answers.count x ≤ answers.count (ks.foldl
      (fun best x => if answers.count best < answers.count x then x else best) k) := by
  intro ks
  induction ks with
  | nil => intro k; exact ⟨le_refl _, by simp⟩
  | cons y ks ih =>
    intro k
    have h := ih (if answers.count k < answers.count y then y else k)
    rw [List.foldl_cons]
    constructor
    · refine le_trans ?_ h.1
      split_ifs with hy
      · exact le_of_lt hy
      · exact le_refl _
    · intro x hx
      rcases List.mem_cons.mp hx with rfl | hx2
      · refine le_trans ?_ h.1
        split_ifs with hy
        · exact le_refl _
        · exact le_of_not_lt hy
      · exact h.2 x hx2

/-- C4: majority-vote aggregation returns the most frequent answer value,
with ties broken by first-encountered order in the buffer: the result of
`Counter(answers).most_common(1)[0][0]` has maximal count among all buffered
answers, `["72","72","72","8"]` yields `"72"`, and the tie
`["10","10","20","20"]` in that arrival order yields `"10"`
(demo_mock.py lines 162-164). -/
theorem majority_vote_most_frequent (answers : List String) (h : answers ≠ []) :
    (∃ r, mostCommon1 answers = some r ∧ ∀ a ∈ answers, answers.count a ≤ answers.count r) ∧
    mostCommon1 ["72", "72", "72", "8"] = some "72" ∧
    mostCommon1 ["10", "10", "20", "20"] = some "10" := by
  refine ⟨?_, by decide, by decide⟩
  obtain ⟨a, l, rfl⟩ := List.exists_cons_of_ne_nil h
  have hkeys : firstKeys [] (a :: l) = a :: firstKeys [a] l := by
    rw [firstKeys, if_neg (List.not_mem_nil a)]
  refine ⟨_, by rw [mostCommon1, hkeys], ?_⟩
  intro x hx
  have hxk : x ∈ firstKeys [] (a :: l) := mem_firstKeys _ _ _ hx (List.not_mem_nil x)
  rw [hkeys] at hxk
  rcases List.mem_cons.mp hxk with rfl | hxk2
  · exact (count_le_foldl_best (x :: l) (firstKeys [x] l) x).1
  · exact (count_le_foldl_best (a :: l) (firstKeys [a] l) a).2 x hxk2

/-- Witness for C4 at the tied buffer `["10","10","20","20"]`. -/
theorem majority_vote_most_frequent_witness :
    (∃ r, mostCommon1 ["10", "10", "20", "20"] = some r ∧
      ∀ a ∈ ["10", "10", "20", "20"],
        List.count a ["10", "10", "20", "20"] ≤ List.count r ["10", "10", "20", "20"]) ∧
    mostCommon1 ["72", "72", "72", "8"] = some "72" ∧
    mostCommon1 ["10", "10", "20", "20"] = some "10" :=
  majority_vote_most_frequent ["10", "10", "20", "20"] (by decide)

theorem takeDigits_first : ∀ (l : List Char) (c : Char) (t : List Char),
    (takeDigits l).1 = c :: t → c.isDigit = true := by
  intro l
  cases l with
  | nil => intro c t h; simp [takeDigits] at h
  | cons b l2 =>
    intro c t h
    unfold takeDigits at h
    split_ifs at h with hb
    obtain ⟨rfl, -⟩ := List.cons.inj h
    exact hb

theorem parseNumBody_first : ∀ (sign cs g : List Char), parseNumBody sign cs = some g →
    ∃ c t, g = sign ++ c :: t ∧ c.isDigit = true := by
  intro sign cs g h
  simp only [parseNumBody] at h
  split_ifs at h with hp
  rcases hd : (takeDigits cs).1 with _ | ⟨c, t⟩
  · exact absurd hd hp
  have hc := takeDigits_first cs c t hd
  split at h
  · rw [Option.some.injEq] at h
    exact ⟨c, t, by rw [← h, hd], hc⟩
  · rename_i x1 cs3 heq1
    split_ifs at h with hq
    split at h
    · rw [Option.some.injEq] at h
      refine ⟨c, t ++ '.' :: (takeDigits cs3).1, ?_, hc⟩
      rw [← h, hd]
      simp
    · exact absurd h (by simp)
  · exact absurd h (by simp)

theorem parseMarkerAt_first : ∀ (cs g : List Char), parseMarkerAt cs = some g →
    ∃ c t, g = c :: t ∧ (c = '-' ∨ c.isDigit = true) := by
  intro cs g h
  unfold parseMarkerAt at h
  split at h
  · obtain ⟨c, t, hg, hc⟩ := parseNumBody_first _ _ _ h
    exact ⟨'-', c :: t, by simpa using hg, Or.inl rfl⟩
  · obtain ⟨c, t, hg, hc⟩ := parseNumBody_first _ _ _ h
    exact ⟨c, t, by simpa using hg, Or.inr hc⟩

theorem findMarker_first : ∀ (cs : List Char) (s : String), findMarker cs = some s →
    ∃ c t, s.data = c :: t ∧ (c = '-' ∨ c.isDigit = true) := by
  intro cs
  induction cs with
  | nil => intro s h; simp [findMarker] at h
  | cons b rest ih =>
    intro s h
    unfold findMarker at h
    split_ifs at h with hb
    · split at h
      · exact absurd h (by simp)
      · split_ifs at h with hb2
        · split at h
          · rename_i g hg
            rw [Option.some.injEq] at h
            obtain ⟨c, t, hgc, hc⟩ := parseMarkerAt_first _ _ hg
            exact ⟨c, t, by rw [← h, hgc], hc⟩
          · exact ih s h
        · exact ih s h
    · exact ih s h

theorem extractAnswer_no_sentinel (s v : String) (h : extractAnswer s = some v) :
    v ≠ "No answer found" := by
  intro hv
  obtain ⟨c, t, hdata, hc⟩ := findMarker_first s.data v h
  rw [hv] at hdata
  rw [show ("No answer found").data = 'N' :: ("o answer found").data from rfl] at hdata
  obtain ⟨rfl, -⟩ := List.cons.inj hdata
  rcases hc with hc | hc
  · exact absurd hc (by decide)
  · exact absurd hc (by decide)

/-- C7: expert answer extraction never raises: whether or not the oracle
output contains a double-curly-brace marker around a signed integer or
decimal, the assigned expert publishes its `ExpertSolution`, with the
extracted number when the marker is present and the sentinel
`"No answer found"` otherwise, and the sentinel is not a value the marker
pattern can capture (core.py lines 438-478 and 502-542). -/
theorem expert_extraction_total_with_sentinel (msg : ExpertAssignment)
    (modelOutput : String)
    (hg : "GeometryExpert" ∈ msg.assigned_experts)
    (ha : "AlgebraExpert" ∈ msg.assigned_experts) :
    (∃ sol, GeometryExpert.handle_assignment msg modelOutput = some sol ∧
      sol.answer = (extractAnswer modelOutput).getD "No answer found" ∧
      (extractAnswer modelOutput = none → sol.answer = "No answer found")) ∧
    (∃ sol, AlgebraExpert.handle_assignment msg modelOutput = some sol ∧
      sol.answer = (extractAnswer modelOutput).getD "No answer found" ∧
      (extractAnswer modelOutput = none → sol.answer = "No answer found")) ∧
    (∀ s v, extractAnswer s = some v → v ≠ "No answer found") := by
  refine ⟨?_, ?_, extractAnswer_no_sentinel⟩
  · refine ⟨⟨"GeometryExpert", msg.question, modelOutput,
      (extractAnswer modelOutput).getD "No answer found"⟩, ?_, rfl,
      fun h0 => by rw [h0]; rfl⟩
    simp [GeometryExpert.handle_assignment, expertHandleAssignment, hg]
  · refine ⟨⟨"AlgebraExpert", msg.question, modelOutput,
      (extractAnswer modelOutput).getD "No answer found"⟩, ?_, rfl,
      fun h0 => by rw [h0]; rfl⟩
    simp [AlgebraExpert.handle_assignment, expertHandleAssignment, ha]

/-- Witness for C7: oracle output with no marker yields the sentinel. -/
theorem expert_extraction_total_with_sentinel_witness :
    (∃ sol, GeometryExpert.handle_assignment
        { question := "q", assigned_experts := ["GeometryExpert", "AlgebraExpert"],
          reasoning := "r" } "no marker here" = some sol ∧
      sol.answer = (extractAnswer "no marker here").getD "No answer found" ∧
      (extractAnswer "no marker here" = none → sol.answer = "No answer found")) ∧
    (∃ sol, AlgebraExpert.handle_assignment
        { question := "q", assigned_experts := ["GeometryExpert", "AlgebraExpert"],
          reasoning := "r" } "no marker here" = some sol ∧
      sol.answer = (extractAnswer "no marker here").getD "No answer found" ∧
      (extractAnswer "no marker here" = none → sol.answer = "No answer found")) ∧
    (∀ s v, extractAnswer s = some v → v ≠ "No answer found") :=
  expert_extraction_total_with_sentinel
    { question := "q", assigned_experts := ["GeometryExpert", "AlgebraExpert"],
      reasoning := "r" } "no marker here" (by decide) (by decide)

/-- C8: when the barrier completes, `_evaluate_solutions` does not crash on
any oracle output: it publishes exactly one final `Answer` carrying the
extracted number when the marker is present and the sentinel
`"Evaluation incomplete"` otherwise, and sets
`ProgressLedger.task_complete = true` (core.py lines 607-660). -/
theorem evaluator_completion_total (st : EvaluatorState) (modelOutput : String)
    (pl : ProgressLedger) (h : st.progress_ledger = some pl) :
    (∃ pl2, (Evaluator.evaluate_solutions st modelOutput).1.progress_ledger = some pl2 ∧
      pl2.task_complete = true) ∧
    (Evaluator.evaluate_solutions st modelOutput).2 =
      [{ content := (extractAnswer modelOutput).getD "Evaluation incomplete" }] ∧
    (extractAnswer modelOutput = none →
      (Evaluator.evaluate_solutions st modelOutput).2 =
        [{ content := "Evaluation incomplete" }]) := by
  constructor
  · simp only [Evaluator.evaluate_solutions, h, Option.map_some']
    exact ⟨_, rfl, by
      simp [ProgressLedger.update_progress, ProgressLedger.set_next_action]⟩
  refine ⟨rfl, fun h0 => ?_⟩
  have h2 : (Evaluator.evaluate_solutions st modelOutput).2
      = [{ content := (extractAnswer modelOutput).getD "Evaluation incomplete" }] := rfl
  rw [h2, h0]
  rfl

/-- Witness for C8 on a ledger-carrying state and marker-free output. -/
theorem evaluator_completion_total_witness :
    (∃ pl2, (Evaluator.evaluate_solutions
        { solutions_buffer := [], expected_experts := ["GeometryExpert"],
          current_question := "q", progress_ledger := some ProgressLedger.init }
        "nothing numeric").1.progress_ledger = some pl2 ∧ pl2.task_complete = true) ∧
    (Evaluator.evaluate_solutions
        { solutions_buffer := [], expected_experts := ["GeometryExpert"],
          current_question := "q", progress_ledger := some ProgressLedger.init }
        "nothing numeric").2 =
      [{ content := (extractAnswer "nothing numeric").getD "Evaluation incomplete" }] ∧
    (extractAnswer "nothing numeric" = none →
      (Evaluator.evaluate_solutions
          { solutions_buffer := [], expected_experts := ["GeometryExpert"],
            current_question := "q", progress_ledger := some ProgressLedger.init }
          "nothing numeric").2 = [{ content := "Evaluation incomplete" }]) :=
  evaluator_completion_total
    { solutions_buffer := [], expected_experts := ["GeometryExpert"],
      current_question := "q", progress_ledger := some ProgressLedger.init }
    "nothing numeric" ProgressLedger.init rfl

theorem handle_solution_not_expected (st : EvaluatorState) (m : ExpertSolution)
    (hm : m.expert_name ∉ st.expected_experts) :
    Evaluator.handle_solution st m = (st, false) := by
  unfold Evaluator.handle_solution
  rw [if_neg hm]

theorem run_cons (st : EvaluatorState) (m : ExpertSolution) (rest : List ExpertSolution) :
    Evaluator.run st (m :: rest) =
      ((Evaluator.run (Evaluator.handle_solution st m).1 rest).1,
        (Evaluator.handle_solution st m).2 ::
          (Evaluator.run (Evaluator.handle_solution st m).1 rest).2) := rfl

theorem handle_solution_expected (buf : List ExpertSolution) (E : List String)
    (q : String) (pl : Option ProgressLedger) (m : ExpertSolution)
    (hm : m.expert_name ∈ E) :
    Evaluator.handle_solution ⟨buf, E, q, pl⟩ m =
      (⟨buf ++ [m], E, q,
        pl.map (fun p =>
          p.update_progress (some ("Received solution from " ++ m.expert_name)) true)⟩,
        decide (((buf ++ [m]).map (fun x => x.expert_name)).toFinset = E.toFinset)) := by
  unfold Evaluator.handle_solution
  rw [if_pos hm]
  dsimp only
  split_ifs with h2
  · rw [decide_eq_true h2]
  · rw [decide_eq_false h2]

theorem run_flag_char : ∀ (msgs buf : List ExpertSolution) (E : List String)
    (q : String) (pl : Option ProgressLedger) (i : Nat), i < msgs.length →
    (((Evaluator.run ⟨buf, E, q, pl⟩ msgs).2.getD i false = true) ↔
      ((msgs.getD i default).expert_name ∈ E ∧
        ((buf ++ (msgs.take (i + 1)).filter
            (fun m => decide (m.expert_name ∈ E))).map (fun m => m.expert_name)).toFinset
          = E.toFinset)) := by
  intro msgs
  induction msgs with
  | nil => intro buf E q pl i hi; simp at hi
  | cons m rest ih =>
    intro buf E q pl i hi
    rw [run_cons]
    by_cases hm : m.expert_name ∈ E
    · rw [handle_solution_expected buf E q pl m hm]
      cases i with
      | zero =>
        simp only [List.getD_cons_zero, List.take_succ_cons, List.take_zero,
          List.filter_cons, List.filter_nil, decide_eq_true hm, if_pos rfl]
        constructor
        · intro ht
          exact ⟨hm, of_decide_eq_true ht⟩
        · rintro ⟨-, hset⟩
          exact decide_eq_true hset
      | succ j =>
        have hj : j < rest.length := by simpa using hi
        have := ih (buf ++ [m]) E q
          (pl.map (fun p =>
            p.update_progress (some ("Received solution from " ++ m.expert_name)) true))
          j hj
        simp only [List.getD_cons_succ, List.take_succ_cons, List.filter_cons,
          decide_eq_true hm, if_pos rfl] at this ⊢
        rw [this]
        constructor
        · rintro ⟨h1, h2⟩
          refine ⟨h1, ?_⟩
          rw [← h2]
          congr 1
          simp
        · rintro ⟨h1, h2⟩
          refine ⟨h1, ?_⟩
          rw [← h2]
          congr 1
          simp
    · rw [handle_solution_not_expected _ m hm]
      cases i with
      | zero =>
        simp only [List.getD_cons_zero, List.take_succ_cons, List.take_zero,
          List.filter_cons, List.filter_nil, decide_eq_false hm, if_neg]
        constructor
        · intro ht
          simp at ht
        · rintro ⟨h1, -⟩
          exact absurd h1 hm
      | succ j =>
        have hj : j < rest.length := by simpa using hi
        have := ih buf E q pl j hj
        simp only [List.getD_cons_succ, List.take_succ_cons, List.filter_cons,
          decide_eq_false hm] at this ⊢
        exact this

theorem handle_assignment_unfolded (st0 : EvaluatorState) (a : ExpertAssignment) :
    Evaluator.handle_assignment st0 a = ⟨[], a.assigned_experts, a.question,
      some (ProgressLedger.init.set_next_action "Experts"
        ("Waiting for solutions from: " ++ commaJoin a.assigned_experts))⟩ := rfl

theorem receivedSet_take_succ_not_expected (E : List String) (msgs : List ExpertSolution)
    (i : Nat) (hi : i < msgs.length)
    (hni : (msgs.getD i default).expert_name ∉ E) :
    receivedSet E (msgs.take (i + 1)) = receivedSet E (msgs.take i) := by
  have htake : msgs.take (i + 1) = msgs.take i ++ [msgs.getD i default] := by
    rw [List.take_succ, List.getElem?_eq_getElem hi]
    rw [List.getD_eq_getElem?_getD, List.getElem?_eq_getElem hi]
    rfl
  have hfil : List.filter (fun m => decide (m.expert_name ∈ E)) [msgs.getD i default]
      = [] := by
    rw [List.getD_eq_getElem?_getD] at hni
    simp [hni]
  rw [receivedSet, receivedSet, htake, List.filter_append, hfil, List.append_nil]

/-- C2: after an `ExpertAssignment`, `_evaluate_solutions` is invoked on the
first insertion at which the set of buffered expert names equals the set of
expected assigned experts, and not before: the barrier flag of message `j`
is false while the received-name set of every prefix up to `j` differs from
the expected set, and true at the first index where they agree
(core.py lines 591-605). -/
theorem evaluator_barrier_release_iff_first_complete (st0 : EvaluatorState)
    (a : ExpertAssignment) (msgs : List ExpertSolution)
    (hE : a.assigned_experts ≠ []) :
    (∀ j, j < msgs.length →
      receivedSet a.assigned_experts (msgs.take (j + 1)) ≠ a.assigned_experts.toFinset →
      (Evaluator.run (Evaluator.handle_assignment st0 a) msgs).2.getD j false = false) ∧
    (∀ i, i < msgs.length →
      receivedSet a.assigned_experts (msgs.take (i + 1)) = a.assigned_experts.toFinset →
      (∀ j, j < i → receivedSet a.assigned_experts (msgs.take (j + 1))
          ≠ a.assigned_experts.toFinset) →
      ((Evaluator.run (Evaluator.handle_assignment st0 a) msgs).2.getD i false = true ∧
        ∀ j, j < i →
          (Evaluator.run (Evaluator.handle_assignment st0 a) msgs).2.getD j false
            = false)) := by
  rw [handle_assignment_unfolded st0 a]
  have hA : ∀ j, j < msgs.length →
      receivedSet a.assigned_experts (msgs.take (j + 1)) ≠ a.assigned_experts.toFinset →
      (Evaluator.run ⟨[], a.assigned_experts, a.question,
        some (ProgressLedger.init.set_next_action "Experts"
          ("Waiting for solutions from: " ++ commaJoin a.assigned_experts))⟩ msgs).2.getD
        j false = false := by
    intro j hj hne
    rcases Bool.eq_false_or_eq_true ((Evaluator.run ⟨[], a.assigned_experts, a.question,
        some (ProgressLedger.init.set_next_action "Experts"
          ("Waiting for solutions from: " ++ commaJoin a.assigned_experts))⟩
        msgs).2.getD j false) with ht | hf
    · obtain ⟨-, hset⟩ := (run_flag_char msgs [] a.assigned_experts a.question _ j hj).mp ht
      exact absurd (by simpa [receivedSet] using hset) hne
    · exact hf
  refine ⟨hA, ?_⟩
  intro i hi heq hmin
  have hname : (msgs.getD i default).expert_name ∈ a.assigned_experts := by
    by_contra hni
    have hsame := receivedSet_take_succ_not_expected a.assigned_experts msgs i hi hni
    cases i with
    | zero =>
      rw [hsame] at heq
      have : a.assigned_experts = [] := by
        have h0 : receivedSet a.assigned_experts (msgs.take 0) = ∅ := rfl
        rw [h0] at heq
        exact List.toFinset_eq_empty_iff _ |>.mp heq.symm
      exact hE this
    | succ k =>
      rw [hsame] at heq
      exact hmin k (Nat.lt_succ_self k) heq
  refine ⟨(run_flag_char msgs [] a.assigned_experts a.question _ i hi).mpr
    ⟨hname, by simpa [receivedSet] using heq⟩, ?_⟩
  intro j hj
  exact hA j (lt_trans hj hi) (hmin j hj)

theorem run_no_release_when_full : ∀ (msgs buf : List ExpertSolution) (E : List String)
    (q : String) (pl : Option ProgressLedger),
    (∀ m ∈ msgs, m.expert_name ∈ E →
      m.expert_name ∉ buf.map (fun x => x.expert_name)) →
    E.toFinset ⊆ (buf.map (fun x => x.expert_name)).toFinset →
    (Evaluator.run ⟨buf, E, q, pl⟩ msgs).2.count true = 0 := by
  intro msgs
  induction msgs with
  | nil => intro buf E q pl _ _; rfl
  | cons m rest ih =>
    intro buf E q pl hnot hsub
    have hm : m.expert_name ∉ E := by
      intro hmem
      have h1 : m.expert_name ∈ (buf.map (fun x => x.expert_name)).toFinset :=
        hsub (List.mem_toFinset.mpr hmem)
      exact hnot m (List.mem_cons_self _ _) hmem (List.mem_toFinset.mp h1)
    rw [run_cons, handle_solution_not_expected _ m hm]
    simp only [List.count_cons]
    rw [ih buf E q pl (fun x hx => hnot x (List.mem_cons_of_mem _ hx)) hsub]
    rfl

theorem run_release_at_most_once : ∀ (msgs buf : List ExpertSolution) (E : List String)
    (q : String) (pl : Option ProgressLedger),
    (msgs.map (fun m => m.expert_name)).Nodup →
    (∀ m ∈ msgs, m.expert_name ∉ buf.map (fun x => x.expert_name)) →
    (Evaluator.run ⟨buf, E, q, pl⟩ msgs).2.count true ≤ 1 := by
  intro msgs
  induction msgs with
  | nil => intro buf E q pl _ _; exact Nat.zero_le 1
  | cons m rest ih =>
    intro buf E q pl hnd hnot
    obtain ⟨hmrest, hnd2⟩ :=
      List.nodup_cons.mp (by simpa only [List.map_cons] using hnd)
    have hnot2 : ∀ x ∈ rest, x.expert_name ∉ (buf ++ [m]).map (fun y => y.expert_name) := by
      intro x hx
      rw [List.map_append]
      intro hmem
      rcases List.mem_append.mp hmem with h1 | h1
      · exact hnot x (List.mem_cons_of_mem _ hx) h1
      · have hxm : x.expert_name = m.expert_name := by simpa using h1
        exact hmrest (hxm ▸ List.mem_map_of_mem (fun y => y.expert_name) hx)
    by_cases hm : m.expert_name ∈ E
    · rw [run_cons, handle_solution_expected buf E q pl m hm]
      simp only [List.count_cons]
      by_cases hs : ((buf ++ [m]).map (fun x => x.expert_name)).toFinset = E.toFinset
      · rw [decide_eq_true hs]
        have h0 := run_no_release_when_full rest (buf ++ [m]) E q
          (pl.map (fun p =>
            p.update_progress (some ("Received solution from " ++ m.expert_name)) true))
          (fun x hx _ => hnot2 x hx)
          (by rw [hs])
        rw [h0]
        simp
      · rw [decide_eq_false hs]
        have h1 := ih (buf ++ [m]) E q
          (pl.map (fun p =>
            p.update_progress (some ("Received solution from " ++ m.expert_name)) true))
          hnd2 hnot2
        simpa using h1
    · rw [run_cons, handle_solution_not_expected _ m hm]
      simp only [List.count_cons]
      have h1 := ih buf E q pl hnd2 (fun x hx => hnot x (List.mem_cons_of_mem _ hx))
      simpa using h1

/-- C1, amended: the solution barrier releases at most once per assignment
provided each expert name occurs at most once in the message sequence; a
duplicate `ExpertSolution` from an already-received expected expert arriving
after the release triggers `_evaluate_solutions` again, because the barrier
condition keeps holding on the uncleared buffer
(counterexample `evaluator_double_release_on_duplicate`;
core.py lines 591-605). -/
theorem evaluator_single_release_without_duplicates (st0 : EvaluatorState)
    (a : ExpertAssignment) (msgs : List ExpertSolution)
    (hnd : (msgs.map (fun m => m.expert_name)).Nodup) :
    (Evaluator.run (Evaluator.handle_assignment st0 a) msgs).2.count true ≤ 1 := by
  rw [handle_assignment_unfolded st0 a]
  exact run_release_at_most_once msgs [] a.assigned_experts a.question _ hnd (by simp)

/-- Witness for the amended C1 on a duplicate-free sequence. -/
theorem evaluator_single_release_witness :
    (Evaluator.run (Evaluator.handle_assignment EvaluatorState.init
        ⟨"q", ["GeometryExpert", "AlgebraExpert"], "r"⟩)
      [⟨"GeometryExpert", "q", "s1", "5"⟩, ⟨"AlgebraExpert", "q", "s2", "7"⟩]).2.count
      true ≤ 1 :=
  evaluator_single_release_without_duplicates EvaluatorState.init
    ⟨"q", ["GeometryExpert", "AlgebraExpert"], "r"⟩
    [⟨"GeometryExpert", "q", "s1", "5"⟩, ⟨"AlgebraExpert", "q", "s2", "7"⟩] (by decide)

/-- Counterexample to C1 as stated: with expected experts
`["GeometryExpert"]`, the barrier fires on the first `GeometryExpert`
solution and fires AGAIN on a duplicate solution from the same
already-received expert, so two evaluations run for one assignment. -/
theorem evaluator_double_release_on_duplicate :
    (Evaluator.run (Evaluator.handle_assignment EvaluatorState.init
        ⟨"q", ["GeometryExpert"], "r"⟩)
      [⟨"GeometryExpert", "q", "s1", "5"⟩, ⟨"GeometryExpert", "q", "s2", "5"⟩]).2
      = [true, true] ∧
    (Evaluator.run (Evaluator.handle_assignment EvaluatorState.init
        ⟨"q", ["GeometryExpert"], "r"⟩)
      [⟨"GeometryExpert", "q", "s1", "5"⟩, ⟨"GeometryExpert", "q", "s2", "5"⟩]).2.count
      true = 2 := by decide

/-- Counterexample to C3 as stated: a duplicate `ExpertSolution` from an
already-buffered expected expert is NOT ignored silently: it is appended to
the solutions buffer (length 1 becomes 2) and the progress ledger changes. -/
theorem evaluator_buffers_duplicate_expected :
    (Evaluator.handle_solution
        (Evaluator.handle_solution
          (Evaluator.handle_assignment EvaluatorState.init
            ⟨"q", ["GeometryExpert", "AlgebraExpert"], "r"⟩)
          ⟨"GeometryExpert", "q", "s1", "5"⟩).1
        ⟨"GeometryExpert", "q", "s2", "6"⟩).1.solutions_buffer.length = 2 ∧
    (Evaluator.handle_solution
        (Evaluator.handle_assignment EvaluatorState.init
          ⟨"q", ["GeometryExpert", "AlgebraExpert"], "r"⟩)
        ⟨"GeometryExpert", "q", "s1", "5"⟩).1.solutions_buffer.length = 1 ∧
    (Evaluator.handle_solution
        (Evaluator.handle_solution
          (Evaluator.handle_assignment EvaluatorState.init
            ⟨"q", ["GeometryExpert", "AlgebraExpert"], "r"⟩)
          ⟨"GeometryExpert", "q", "s1", "5"⟩).1
        ⟨"GeometryExpert", "q", "s2", "6"⟩).1.progress_ledger ≠
      (Evaluator.handle_solution
        (Evaluator.handle_assignment EvaluatorState.init
          ⟨"q", ["GeometryExpert", "AlgebraExpert"], "r"⟩)
        ⟨"GeometryExpert", "q", "s1", "5"⟩).1.progress_ledger := by decide

/-- C3, amended: only an `ExpertSolution` whose `expert_name` is not in the
expected assigned-experts set is ignored silently, leaving the whole
Evaluator state (buffer, expected list, progress ledger) unchanged and
triggering no evaluation; duplicates from expected experts are appended
(counterexample `evaluator_buffers_duplicate_expected`;
core.py lines 591-605). -/
theorem evaluator_ignores_only_unexpected (st : EvaluatorState) (msg : ExpertSolution)
    (h : msg.expert_name ∉ st.expected_experts) :
    Evaluator.handle_solution st msg = (st, false) :=
  handle_solution_not_expected st msg h

/-- Witness for the amended C3 at an unexpected expert name. -/
theorem evaluator_ignores_only_unexpected_witness :
    Evaluator.handle_solution ⟨[], ["GeometryExpert"], "q", none⟩
      ⟨"AlgebraExpert", "q", "s", "5"⟩ = (⟨[], ["GeometryExpert"], "q", none⟩, false) :=
  evaluator_ignores_only_unexpected ⟨[], ["GeometryExpert"], "q", none⟩
    ⟨"AlgebraExpert", "q", "s", "5"⟩ (by decide)

/-- Witness for C2: one expected expert, one solution, release at index 0. -/
theorem evaluator_barrier_witness :
    (Evaluator.run (Evaluator.handle_assignment EvaluatorState.init
        ⟨"q", ["GeometryExpert"], "r"⟩)
      [⟨"GeometryExpert", "q", "s", "5"⟩]).2.getD 0 false = true ∧
    ∀ j, j < 0 → (Evaluator.run (Evaluator.handle_assignment EvaluatorState.init
        ⟨"q", ["GeometryExpert"], "r"⟩)
      [⟨"GeometryExpert", "q", "s", "5"⟩]).2.getD j false = false :=
  (evaluator_barrier_release_iff_first_complete EvaluatorState.init
      ⟨"q", ["GeometryExpert"], "r"⟩ [⟨"GeometryExpert", "q", "s", "5"⟩]
      (by decide)).2 0 (by decide) (by decide) (fun j hj => absurd hj (by omega))

/-- `_evaluate_solutions` mutates only the progress ledger (and publishes the
final `Answer`): the solutions buffer, expected experts and question are
untouched, so interleaving it after a release does not affect the barrier
condition read by later `handle_solution` calls. -/
theorem evaluate_solutions_preserves_barrier_state (st : EvaluatorState)
    (modelOutput : String) :
    (Evaluator.evaluate_solutions st modelOutput).1.solutions_buffer
        = st.solutions_buffer ∧
    (Evaluator.evaluate_solutions st modelOutput).1.expected_experts
        = st.expected_experts ∧
    (Evaluator.evaluate_solutions st modelOutput).1.current_question
        = st.current_question :=
  ⟨rfl, rfl, rfl⟩
